import Mathlib

/-!
Shallow embedding of the leave-quota and absence-ledger core of the
`karyawan-kita-backend` repository.

The Quota Manager lives in `services/leaveService.js` (exposed here with the
same function names).  JavaScript numbers on the quota counters are modelled
as `Int`; the clock-derived month label (`getCurrentMonth()`, a `"YYYY-MM"`
string) is passed explicitly as a `nowMonth : String` argument, and the
database row for one employee is passed and returned explicitly.  Timestamps
are modelled as integer milliseconds since the epoch; the calendar conversion
`new Date(t).toISOString().substring(0, 7)` used by the route layer is
abstracted as an injected function `isoMonth : Int → String`.
-/

namespace KaryawanKita

/-- Milliseconds in one day: the divisor `1000 * 60 * 60 * 24` used by
`calculateLeaveDays`. -/
def msPerDay : Nat := 1000 * 60 * 60 * 24

/-- Embedding of `calculateLeaveDays(startDate, endDate)` from
`services/leaveService.js` (also duplicated verbatim in
`scripts/updateLeaveDays.js`): `Math.ceil(|end - start| / msPerDay) + 1`,
with timestamps in integer milliseconds.  For a nonnegative integer
numerator, JavaScript `Math.ceil(a / d)` is the ceiling division
`(a + d - 1) / d` on naturals. -/
def calculateLeaveDays (startDate endDate : Int) : Nat :=
  let diffTime : Nat := (endDate - startDate).natAbs
  (diffTime + (msPerDay - 1)) / msPerDay + 1

/-- Employee quota fields selected by the quota-manager queries:
`monthly_leave_quota`, `used_leave_days_this_month`, `current_month`. -/
structure Employee where
  monthly_leave_quota : Int
  used_leave_days_this_month : Int
  current_month : String
deriving Repr, DecidableEq

/-- Result object of `checkAndResetMonthlyQuota`. -/
structure QuotaInfo where
  quota : Int
  used : Int
  remaining : Int
  wasReset : Bool
deriving Repr, DecidableEq

/-- Embedding of `checkAndResetMonthlyQuota(prisma, employeeId)` for an
employee row that exists: if the stored `current_month` differs from the
clock month, persist `current_month := nowMonth` and
`used_leave_days_this_month := 0` and report a reset with
`remaining = quota`; otherwise leave the row alone and report the stored
counters. -/
def checkAndResetMonthlyQuota (nowMonth : String) (e : Employee) :
    Employee × QuotaInfo :=
  if e.current_month ≠ nowMonth then
    ({ e with current_month := nowMonth, used_leave_days_this_month := 0 },
     { quota := e.monthly_leave_quota
       used := 0
       remaining := e.monthly_leave_quota
       wasReset := true })
  else
    (e,
     { quota := e.monthly_leave_quota
       used := e.used_leave_days_this_month
       remaining := e.monthly_leave_quota - e.used_leave_days_this_month
       wasReset := false })

/-- Quota-manager error taxonomy: `NotFound` is the thrown
`"Karyawan tidak ditemukan."`, `QuotaExceeded` the thrown
`"Kuota cuti bulan ini tidak mencukupi."`. -/
inductive QErr where
  | NotFound
  | QuotaExceeded
deriving Repr, DecidableEq

/-- Embedding of `checkAndResetMonthlyQuota` including the
`prisma.employee.findUnique` lookup: a missing employee row makes the call
throw `NotFound`. -/
def checkAndResetMonthlyQuotaDb (nowMonth : String) (db : Option Employee) :
    Except QErr (Employee × QuotaInfo) :=
  match db with
  | none => .error .NotFound
  | some e => .ok (checkAndResetMonthlyQuota nowMonth e)

/-- Result object of `checkLeaveQuota`. -/
structure QuotaCheck where
  quota : Int
  used : Int
  remaining : Int
  requested : Int
  sufficient : Bool
  month : String
deriving Repr, DecidableEq

/-- Embedding of `checkLeaveQuota(prisma, employeeId, requestedDays)`:
run the rollover check, then report whether `remaining ≥ requestedDays`.
The returned row reflects the (possibly reset) persisted state. -/
def checkLeaveQuota (nowMonth : String) (requestedDays : Int) (e : Employee) :
    Employee × QuotaCheck :=
  let r := checkAndResetMonthlyQuota nowMonth e
  (r.1,
   { quota := r.2.quota
     used := r.2.used
     remaining := r.2.remaining
     requested := requestedDays
     sufficient := decide (r.2.remaining ≥ requestedDays)
     month := nowMonth })

/-- Embedding of `updateEmployeeLeaveQuota(prisma, employeeId,
additionalDays)` (the `consume` operation).  The rollover check runs first
and its write is persisted even when the quota check then fails, because
`checkAndResetMonthlyQuota` has already updated the row.  The returned
`Bool` is `false` exactly when the call throws `QuotaExceeded`; the returned
employee row is the persisted state in either case. -/
def updateEmployeeLeaveQuota (nowMonth : String) (additionalDays : Int)
    (e : Employee) : Employee × Bool :=
  let e1 := (checkAndResetMonthlyQuota nowMonth e).1
  let newUsedDays := e1.used_leave_days_this_month + additionalDays
  if newUsedDays > e1.monthly_leave_quota then
    (e1, false)
  else
    ({ e1 with used_leave_days_this_month := newUsedDays }, true)

/-- Embedding of `restoreLeaveQuota(prisma, employeeId, days)`: restore only
when the stored `current_month` equals the clock month, flooring the counter
at 0; otherwise do nothing (the cross-month no-op).  No rollover check is
run. -/
def restoreLeaveQuota (nowMonth : String) (days : Int) (e : Employee) :
    Employee :=
  if e.current_month = nowMonth then
    { e with
      used_leave_days_this_month :=
        max 0 (e.used_leave_days_this_month - days) }
  else e

/-- One quota-manager call in a trace, tagged with the clock month at which
it runs (a trace may span a month boundary). -/
inductive QuotaOp where
  | consume (nowMonth : String) (days : Int)
  | restore (nowMonth : String) (days : Int)
  | rolloverIfNeeded (nowMonth : String)
deriving Repr, DecidableEq

/-- Effect of one quota-manager call on the employee row (a failing
`consume` leaves the row as the rollover check persisted it). -/
def applyQuotaOp (op : QuotaOp) (e : Employee) : Employee :=
  match op with
  | .consume nowMonth days => (updateEmployeeLeaveQuota nowMonth days e).1
  | .restore nowMonth days => restoreLeaveQuota nowMonth days e
  | .rolloverIfNeeded nowMonth => (checkAndResetMonthlyQuota nowMonth e).1

/-- Effect of a whole trace of quota-manager calls, run left to right. -/
def runQuotaOps (ops : List QuotaOp) (e : Employee) : Employee :=
  match ops with
  | [] => e
  | op :: rest => runQuotaOps rest (applyQuotaOp op e)

/-- Quota state invariant: `0 ≤ usedLeaveDaysThisMonth ≤ monthlyLeaveQuota`. -/
def QuotaInv (e : Employee) : Prop :=
  0 ≤ e.used_leave_days_this_month ∧
    e.used_leave_days_this_month ≤ e.monthly_leave_quota

instance : DecidablePred QuotaInv := fun e => by
  unfold QuotaInv; infer_instance

/-- Well-formed call: `consume`/`restore` are only ever invoked with a
nonnegative day count (`total_days` of a request is a positive day count). -/
def QuotaOpWf (op : QuotaOp) : Prop :=
  match op with
  | .consume _ days => 0 ≤ days
  | .restore _ days => 0 ≤ days
  | .rolloverIfNeeded _ => True

instance : DecidablePred QuotaOpWf := fun op => by
  unfold QuotaOpWf
  cases op <;> infer_instance

/-- Leave-request columns used by the route handlers in
`routes/leaveRoutes.js` (for the employee that the request belongs to):
`tanggal_mulai` as an integer timestamp, `jenis_pengajuan`, `status`,
`total_days`, and whether an `attachment_filename` is stored. -/
structure LeaveRequest where
  tanggal_mulai : Int
  jenis_pengajuan : String
  status : String
  total_days : Int
  has_attachment : Bool
deriving Repr, DecidableEq

/-- Embedding of the `PUT /:id/status` handler of `routes/leaveRoutes.js`
for a request that exists, acting on the request row and its employee's
quota row.  `isoMonth` abstracts
`new Date(tanggal_mulai).toISOString().substring(0, 7)`.  The handler
consumes quota only when the new status is `"approved"`, the previous
status is `"pending"`, the kind is `"Cuti"` and the start month equals the
clock month; it then persists the new status unconditionally.  When the
quota update throws, the catch block answers 400 before the status write:
the returned `Bool` is `false` and the request row keeps its old status
(the rollover write inside the quota update is already persisted). -/
def updateLeaveStatus (isoMonth : Int → String) (nowMonth : String)
    (newStatus : String) (req : LeaveRequest) (e : Employee) :
    LeaveRequest × Employee × Bool :=
  if newStatus = "approved" ∧ req.status = "pending" ∧
      req.jenis_pengajuan = "Cuti" then
    if isoMonth req.tanggal_mulai = nowMonth then
      let r := updateEmployeeLeaveQuota nowMonth req.total_days e
      if r.2 then ({ req with status := newStatus }, r.1, true)
      else (req, r.1, false)
    else ({ req with status := newStatus }, e, true)
  else ({ req with status := newStatus }, e, true)

/-- Outcome of the `DELETE /:id` handler: whether the request row was
deleted, whether an attachment file was unlinked, and the (untouched)
employee quota row. -/
structure DeleteOutcome where
  deleted : Bool
  fileRemoved : Bool
  employee : Employee
deriving Repr, DecidableEq

/-- Embedding of the `DELETE /:id` handler of `routes/leaveRoutes.js`: a
missing request answers 404; otherwise the attachment file (if any) is
unlinked and the row deleted.  The employee quota row is never touched:
the handler contains no call to `restoreLeaveQuota`. -/
def deleteLeave (db : Option LeaveRequest) (e : Employee) : DeleteOutcome :=
  match db with
  | none => { deleted := false, fileRemoved := false, employee := e }
  | some req =>
      { deleted := true, fileRemoved := req.has_attachment, employee := e }

/-- Outcome of the `POST /` handler: the created request row (if any), the
employee quota row as persisted, whether the staged upload is still on
disk, and whether the handler answered 201. -/
structure CreateOutcome where
  request : Option LeaveRequest
  employee : Option Employee
  fileStillStaged : Bool
  ok : Bool
deriving Repr, DecidableEq

/-- Embedding of the `POST /` handler of `routes/leaveRoutes.js`.  The
upload middleware stages the attachment (`hasFile`) before the handler
body runs.  `"Sakit"` without a file answers 400 early.  For `"Cuti"` the
quota is checked (whose rollover side effect is persisted): an
insufficient quota answers 400 by an early `return`, which bypasses the
catch-block file cleanup, so the staged file stays on disk.  A missing
employee makes `checkLeaveQuota` throw, which the catch block handles by
unlinking the staged file.  Otherwise the request is created with
`status = "pending"` and `total_days = calculateLeaveDays(...)`. -/
def createLeave (nowMonth : String) (jenis_pengajuan : String)
    (hasFile : Bool) (tanggal_mulai tanggal_selesai : Int)
    (db : Option Employee) : CreateOutcome :=
  if jenis_pengajuan = "Sakit" ∧ ¬hasFile then
    { request := none, employee := db, fileStillStaged := hasFile
      ok := false }
  else
    let totalDays : Int := calculateLeaveDays tanggal_mulai tanggal_selesai
    let newReq : LeaveRequest :=
      { tanggal_mulai := tanggal_mulai
        jenis_pengajuan := jenis_pengajuan
        status := "pending"
        total_days := totalDays
        has_attachment := hasFile }
    if jenis_pengajuan = "Cuti" then
      match db with
      | none =>
          { request := none, employee := none, fileStillStaged := false
            ok := false }
      | some e =>
          let r := checkLeaveQuota nowMonth totalDays e
          if r.2.sufficient then
            { request := some newReq, employee := some r.1
              fileStillStaged := hasFile, ok := true }
          else
            { request := none, employee := some r.1
              fileStillStaged := hasFile, ok := false }
    else
      { request := some newReq, employee := db
        fileStillStaged := hasFile, ok := true }

/-- Attendance columns used by the alpha routes: `attendance_id`,
`employee_id`, `tanggal` as an integer timestamp, `status`, `keterangan`. -/
structure Attendance where
  attendance_id : Nat
  employee_id : Nat
  tanggal : Int
  status : String
  keterangan : String
deriving Repr, DecidableEq

/-- Error taxonomy of the alpha routes: `NotFound` is the 404 for a missing
record, `ValidationError` the 400 for a bad target status, `InvalidState`
the 400 `"Record ini bukan alpha record"`. -/
inductive AErr where
  | NotFound
  | ValidationError
  | InvalidState
deriving Repr, DecidableEq

/-- Row update performed by `prisma.attendance.update` in the convert
handler: overwrite `status` and `keterangan` on the row with the given id. -/
def convRow (attendance_id : Nat) (new_status keterangan : String)
    (a : Attendance) : Attendance :=
  if a.attendance_id == attendance_id then
    { a with status := new_status, keterangan := keterangan }
  else a

/-- Embedding of the `PUT /convert/:attendance_id` handler of
`routes/alphaRoutes.js`: reject a target status outside
`hadir`/`izin`/`sakit`; 404 a missing record; reject a record whose current
status is not `"alpa"`; otherwise persist the new status and note. -/
def convertAlpha (attendance_id : Nat) (new_status keterangan : String)
    (db : List Attendance) : Except AErr (List Attendance) :=
  if ¬(new_status = "hadir" ∨ new_status = "izin" ∨ new_status = "sakit")
  then .error .ValidationError
  else
    match db.find? (fun a => a.attendance_id == attendance_id) with
    | none => .error .NotFound
    | some record =>
        if record.status ≠ "alpa" then .error .InvalidState
        else .ok (db.map (convRow attendance_id new_status keterangan))

/-- Filter used by the summary queries of `routes/alphaRoutes.js`:
`status = "alpa"` and `tanggal` in the inclusive date range. -/
def alphaRecordsInRange (startDate endDate : Int) (db : List Attendance) :
    List Attendance :=
  db.filter (fun a =>
    a.status == "alpa" && decide (startDate ≤ a.tanggal) &&
      decide (a.tanggal ≤ endDate))

/-- Deduction accumulation of the summary handler: each alpha record in
range adds the fixed 100000 to the total. -/
def alphaDeduction (records : List Attendance) : Int :=
  records.foldl (fun s _ => s + 100000) 0

/-- Embedding of the `GET /summary` aggregation of `routes/alphaRoutes.js`
over a date range: the alpha count and the accumulated deduction. -/
def getAlphaSummary (startDate endDate : Int) (db : List Attendance) :
    Nat × Int :=
  let records := alphaRecordsInRange startDate endDate db
  (records.length, alphaDeduction records)

theorem quotaInv_checkAndReset (nowMonth : String) (e : Employee)
    (h : QuotaInv e) : QuotaInv (checkAndResetMonthlyQuota nowMonth e).1 := by
  obtain ⟨h0, h1⟩ := h
  unfold checkAndResetMonthlyQuota
  by_cases hm : e.current_month = nowMonth <;>
    simp [hm, QuotaInv] at * <;> omega

theorem quotaInv_consume (nowMonth : String) (days : Int) (e : Employee)
    (hd : 0 ≤ days) (h : QuotaInv e) :
    QuotaInv (updateEmployeeLeaveQuota nowMonth days e).1 := by
  have h1 := quotaInv_checkAndReset nowMonth e h
  unfold updateEmployeeLeaveQuota
  set e1 := (checkAndResetMonthlyQuota nowMonth e).1 with he1
  obtain ⟨ha, hb⟩ := h1
  by_cases hq :
      e1.used_leave_days_this_month + days > e1.monthly_leave_quota <;>
    simp [hq, QuotaInv] <;> omega

theorem quotaInv_restore (nowMonth : String) (days : Int) (e : Employee)
    (hd : 0 ≤ days) (h : QuotaInv e) :
    QuotaInv (restoreLeaveQuota nowMonth days e) := by
  obtain ⟨h0, h1⟩ := h
  unfold restoreLeaveQuota
  by_cases hm : e.current_month = nowMonth <;>
    simp [hm, QuotaInv] <;> omega

theorem quotaInv_applyQuotaOp (op : QuotaOp) (e : Employee)
    (hwf : QuotaOpWf op) (h : QuotaInv e) : QuotaInv (applyQuotaOp op e) := by
  cases op with
  | consume nowMonth days => exact quotaInv_consume nowMonth days e hwf h
  | restore nowMonth days => exact quotaInv_restore nowMonth days e hwf h
  | rolloverIfNeeded nowMonth => exact quotaInv_checkAndReset nowMonth e h

/-- C1: for every employee whose quota state satisfies
`0 ≤ usedLeaveDaysThisMonth ≤ monthlyLeaveQuota`, after any sequence of
`consume` (`updateEmployeeLeaveQuota`), `restore` (`restoreLeaveQuota`) and
`rolloverIfNeeded` (`checkAndResetMonthlyQuota`) calls, run without
interleaving and each with a nonnegative day count, the state still
satisfies `0 ≤ usedLeaveDaysThisMonth ≤ monthlyLeaveQuota`. -/
theorem quota_invariant_preserved (ops : List QuotaOp) (e : Employee)
    (hwf : ∀ op ∈ ops, QuotaOpWf op) (h : QuotaInv e) :
    QuotaInv (runQuotaOps ops e) := by
  induction ops generalizing e with
  | nil => exact h
  | cons op rest ih =>
      exact ih (applyQuotaOp op e)
        (fun o ho => hwf o (List.mem_cons_of_mem op ho))
        (quotaInv_applyQuotaOp op e (hwf op (List.mem_cons_self op rest)) h)

/-- Witness for C1: a concrete trace that consumes, crosses a month
boundary, rolls over and restores, starting from a concrete valid state. -/
theorem quota_invariant_preserved_witness :
    (∀ op ∈ [QuotaOp.consume "2025-01" 2, QuotaOp.rolloverIfNeeded "2025-02",
        QuotaOp.restore "2025-02" 1, QuotaOp.consume "2025-02" 12],
      QuotaOpWf op) ∧
    QuotaInv ⟨12, 3, "2025-01"⟩ ∧
    QuotaInv (runQuotaOps
      [QuotaOp.consume "2025-01" 2, QuotaOp.rolloverIfNeeded "2025-02",
        QuotaOp.restore "2025-02" 1, QuotaOp.consume "2025-02" 12]
      ⟨12, 3, "2025-01"⟩) :=
  ⟨by decide, by decide,
   quota_invariant_preserved _ _ (by decide) (by decide)⟩

/-- C4: writing `e1` for the employee row after the implicit rollover inside
`updateEmployeeLeaveQuota`, the call fails with `QuotaExceeded` and leaves
`used_leave_days_this_month` unchanged (at its post-rollover value) whenever
`e1.used + days > e1.quota`, and otherwise succeeds persisting exactly
`e1.used + days`. -/
theorem consume_quota_exceeded_or_persists (nowMonth : String) (days : Int)
    (e : Employee) :
    ((checkAndResetMonthlyQuota nowMonth e).1.used_leave_days_this_month
          + days >
        (checkAndResetMonthlyQuota nowMonth e).1.monthly_leave_quota →
      updateEmployeeLeaveQuota nowMonth days e =
        ((checkAndResetMonthlyQuota nowMonth e).1, false)) ∧
    ((checkAndResetMonthlyQuota nowMonth e).1.used_leave_days_this_month
          + days ≤
        (checkAndResetMonthlyQuota nowMonth e).1.monthly_leave_quota →
      updateEmployeeLeaveQuota nowMonth days e =
        ({ (checkAndResetMonthlyQuota nowMonth e).1 with
            used_leave_days_this_month :=
              (checkAndResetMonthlyQuota nowMonth e).1.used_leave_days_this_month
                + days },
          true)) := by
  constructor <;> intro h <;>
    simp only [updateEmployeeLeaveQuota]
  · rw [if_pos h]
  · rw [if_neg (not_lt.mpr h)]

/-- Witness for C4: the spec's consume boundary (quota = 5, used = 5,
`consume(employeeId, 1)` fails with used unchanged) and a succeeding call
(quota = 5, used = 3, consume 2 persists 5). -/
theorem consume_quota_exceeded_or_persists_witness :
    (updateEmployeeLeaveQuota "2025-01" 1
        ⟨5, 5, "2025-01"⟩ = (⟨5, 5, "2025-01"⟩, false)) ∧
    (updateEmployeeLeaveQuota "2025-01" 2
        ⟨5, 3, "2025-01"⟩ = (⟨5, 5, "2025-01"⟩, true)) :=
  ⟨(consume_quota_exceeded_or_persists "2025-01" 1 ⟨5, 5, "2025-01"⟩).1
      (by decide),
   (consume_quota_exceeded_or_persists "2025-01" 2 ⟨5, 3, "2025-01"⟩).2
      (by decide)⟩

/-- C5: `restoreLeaveQuota` on an existing employee: when the stored
`current_month` equals the clock month it persists
`max 0 (used - days)` (never negative) leaving `current_month` alone; when
the months differ it changes nothing at all; it never performs a rollover
reset. -/
theorem restore_floor_and_cross_month_noop (nowMonth : String) (days : Int)
    (e : Employee) :
    (e.current_month = nowMonth →
      restoreLeaveQuota nowMonth days e =
        { e with
          used_leave_days_this_month :=
            max 0 (e.used_leave_days_this_month - days) } ∧
      0 ≤ (restoreLeaveQuota nowMonth days e).used_leave_days_this_month) ∧
    (e.current_month ≠ nowMonth → restoreLeaveQuota nowMonth days e = e) := by
  constructor <;> intro h
  · refine ⟨by simp [restoreLeaveQuota, h], ?_⟩
    simp [restoreLeaveQuota, h]
  · simp [restoreLeaveQuota, h]

/-- Witness for C5: the spec's cross-month no-op (`current_month =
"2025-01"`, clock `"2025-02"`, restore 3 leaves the row untouched) and a
same-month restore that floors at 0. -/
theorem restore_floor_and_cross_month_noop_witness :
    (restoreLeaveQuota "2025-02" 3 ⟨12, 3, "2025-01"⟩ =
      ⟨12, 3, "2025-01"⟩) ∧
    (restoreLeaveQuota "2025-01" 5 ⟨12, 3, "2025-01"⟩ =
      ⟨12, 0, "2025-01"⟩) :=
  ⟨(restore_floor_and_cross_month_noop "2025-02" 3 ⟨12, 3, "2025-01"⟩).2
      (by decide),
   by
    have h :=
      ((restore_floor_and_cross_month_noop "2025-01" 5
          ⟨12, 3, "2025-01"⟩).1 (by decide)).1
    simpa using h⟩

/-- C6: `checkAndResetMonthlyQuota` fails with `NotFound` when the employee
row is absent; on a stored month different from the clock month it persists
the new month label with zero usage and reports `wasReset = true` and
`remaining = quota`; on an equal month it reports the stored counters with
`wasReset = false`; and a second call in the same month is a no-op with
`wasReset = false`. -/
theorem rollover_reset_and_idempotent (nowMonth : String) (e : Employee) :
    (checkAndResetMonthlyQuotaDb nowMonth none = .error .NotFound) ∧
    (e.current_month ≠ nowMonth →
      checkAndResetMonthlyQuota nowMonth e =
        ({ monthly_leave_quota := e.monthly_leave_quota
           used_leave_days_this_month := 0
           current_month := nowMonth },
         { quota := e.monthly_leave_quota
           used := 0
           remaining := e.monthly_leave_quota
           wasReset := true })) ∧
    (e.current_month = nowMonth →
      checkAndResetMonthlyQuota nowMonth e =
        (e,
         { quota := e.monthly_leave_quota
           used := e.used_leave_days_this_month
           remaining :=
             e.monthly_leave_quota - e.used_leave_days_this_month
           wasReset := false })) ∧
    ((checkAndResetMonthlyQuota nowMonth
        (checkAndResetMonthlyQuota nowMonth e).1).1 =
      (checkAndResetMonthlyQuota nowMonth e).1 ∧
     (checkAndResetMonthlyQuota nowMonth
        (checkAndResetMonthlyQuota nowMonth e).1).2.wasReset = false) := by
  refine ⟨rfl, ?_, ?_, ?_⟩
  · intro h
    simp [checkAndResetMonthlyQuota, h]
  · intro h
    simp [checkAndResetMonthlyQuota, h]
  · by_cases h : e.current_month = nowMonth <;>
      simp [checkAndResetMonthlyQuota, h]

/-- Witness for C6: concrete rollover across a month boundary followed by
the idempotent second call, and the same-month read-only case. -/
theorem rollover_reset_and_idempotent_witness :
    (checkAndResetMonthlyQuota "2025-02" ⟨12, 3, "2025-01"⟩ =
      (⟨12, 0, "2025-02"⟩,
       { quota := 12, used := 0, remaining := 12, wasReset := true })) ∧
    (checkAndResetMonthlyQuota "2025-01" ⟨12, 3, "2025-01"⟩ =
      (⟨12, 3, "2025-01"⟩,
       { quota := 12, used := 3, remaining := 9, wasReset := false })) ∧
    (checkAndResetMonthlyQuota "2025-02"
        (checkAndResetMonthlyQuota "2025-02" ⟨12, 3, "2025-01"⟩).1).2.wasReset
      = false :=
  ⟨(rollover_reset_and_idempotent "2025-02" ⟨12, 3, "2025-01"⟩).2.1
      (by decide),
   (rollover_reset_and_idempotent "2025-01"
      ⟨12, 3, "2025-01"⟩).2.2.1 (by decide),
   (rollover_reset_and_idempotent "2025-02" ⟨12, 3, "2025-01"⟩).2.2.2.2⟩

/-- C2 counterexample: transitioning a request whose status is already
`"approved"` (kind `"Cuti"`, 3 days) to `"rejected"` does not fail and does
not leave the status unchanged: the handler answers success and persists
`"rejected"`.  There is no `InvalidTransition` outcome in the handler. -/
theorem transition_from_approved_succeeds :
    (updateLeaveStatus (fun _ => "2025-01") "2025-01" "rejected"
        ⟨0, "Cuti", "approved", 3, false⟩ ⟨12, 3, "2025-01"⟩).2.2 = true ∧
    (updateLeaveStatus (fun _ => "2025-01") "2025-01" "rejected"
        ⟨0, "Cuti", "approved", 3, false⟩ ⟨12, 3, "2025-01"⟩).1.status =
      "rejected" := by
  constructor <;> rfl

/-- C2 (amended): the status-transition handler never rejects a source
state: for a request whose status is not `"pending"` it succeeds, persists
the requested status verbatim, and leaves the employee's quota row
unchanged (the `"pending"` source state only gates the quota-consumption
side effect). -/
theorem transition_any_source_persists (isoMonth : Int → String)
    (nowMonth newStatus : String) (req : LeaveRequest) (e : Employee)
    (h : req.status ≠ "pending") :
    updateLeaveStatus isoMonth nowMonth newStatus req e =
      ({ req with status := newStatus }, e, true) := by
  unfold updateLeaveStatus
  rw [if_neg]
  intro hc
  exact h hc.2.1

/-- Witness for the amended C2: a concrete already-rejected request
re-transitioned to `"approved"`. -/
theorem transition_any_source_persists_witness :
    (⟨0, "Cuti", "rejected", 3, false⟩ : LeaveRequest).status ≠ "pending" ∧
    updateLeaveStatus (fun _ => "2025-01") "2025-01" "approved"
        ⟨0, "Cuti", "rejected", 3, false⟩ ⟨12, 3, "2025-01"⟩ =
      (⟨0, "Cuti", "approved", 3, false⟩, ⟨12, 3, "2025-01"⟩, true) :=
  ⟨by decide,
   transition_any_source_persists (fun _ => "2025-01") "2025-01" "approved"
     ⟨0, "Cuti", "rejected", 3, false⟩ ⟨12, 3, "2025-01"⟩ (by decide)⟩

/-- C3: rejecting an already-approved `"Cuti"` request of 3 days, and
deleting it, both leave the employee's quota row untouched — neither
handler ever calls `restoreLeaveQuota`, although a same-month restore of
those 3 days would have changed the row (used 3 → 0). -/
theorem reject_and_delete_never_restore :
    (updateLeaveStatus (fun _ => "2025-01") "2025-01" "rejected"
        ⟨0, "Cuti", "approved", 3, true⟩ ⟨12, 3, "2025-01"⟩).2.1 =
      ⟨12, 3, "2025-01"⟩ ∧
    (deleteLeave (some ⟨0, "Cuti", "approved", 3, true⟩)
        ⟨12, 3, "2025-01"⟩).employee = ⟨12, 3, "2025-01"⟩ ∧
    restoreLeaveQuota "2025-01" 3 ⟨12, 3, "2025-01"⟩ =
      ⟨12, 0, "2025-01"⟩ := by
  refine ⟨rfl, rfl, by decide⟩

/-- C7: approving a pending `"Cuti"` request consumes quota exactly when
the request's start month equals the clock month: in that branch the
persisted employee row is the output of `updateEmployeeLeaveQuota` on the
request's `total_days`, the handler succeeds exactly when that call does,
and on success the persisted status is `"approved"`; in the other branch
the employee row is untouched, the handler succeeds, and the status
`"approved"` is persisted. -/
theorem approve_consumes_iff_current_month (isoMonth : Int → String)
    (nowMonth : String) (req : LeaveRequest) (e : Employee)
    (hp : req.status = "pending") (hc : req.jenis_pengajuan = "Cuti") :
    (isoMonth req.tanggal_mulai = nowMonth →
      (updateLeaveStatus isoMonth nowMonth "approved" req e).2.1 =
          (updateEmployeeLeaveQuota nowMonth req.total_days e).1 ∧
      ((updateLeaveStatus isoMonth nowMonth "approved" req e).2.2 =
        (updateEmployeeLeaveQuota nowMonth req.total_days e).2) ∧
      ((updateEmployeeLeaveQuota nowMonth req.total_days e).2 = true →
        (updateLeaveStatus isoMonth nowMonth "approved" req e).1.status =
          "approved")) ∧
    (isoMonth req.tanggal_mulai ≠ nowMonth →
      updateLeaveStatus isoMonth nowMonth "approved" req e =
        ({ req with status := "approved" }, e, true)) := by
  unfold updateLeaveStatus
  rw [if_pos ⟨rfl, hp, hc⟩]
  constructor <;> intro hm
  · rw [if_pos hm]
    cases hu : (updateEmployeeLeaveQuota nowMonth req.total_days e).2 <;>
      simp [hu]
  · rw [if_neg hm]

/-- Witness for C7: a 4-day pending `"Cuti"` request approved in its own
month consumes 4 days (quota 12, used 0 → 4); the same request with a
start month in the previous month leaves the employee row untouched. -/
theorem approve_consumes_iff_current_month_witness :
    ((⟨0, "Cuti", "pending", 4, false⟩ : LeaveRequest).status = "pending" ∧
      (⟨0, "Cuti", "pending", 4, false⟩ : LeaveRequest).jenis_pengajuan =
        "Cuti") ∧
    (updateLeaveStatus (fun _ => "2025-01") "2025-01" "approved"
        ⟨0, "Cuti", "pending", 4, false⟩ ⟨12, 0, "2025-01"⟩).2.1 =
      (updateEmployeeLeaveQuota "2025-01" 4 ⟨12, 0, "2025-01"⟩).1 ∧
    updateLeaveStatus (fun _ => "2024-12") "2025-01" "approved"
        ⟨0, "Cuti", "pending", 4, false⟩ ⟨12, 0, "2025-01"⟩ =
      (⟨0, "Cuti", "approved", 4, false⟩, ⟨12, 0, "2025-01"⟩, true) :=
  ⟨⟨rfl, rfl⟩,
   ((approve_consumes_iff_current_month (fun _ => "2025-01") "2025-01"
        ⟨0, "Cuti", "pending", 4, false⟩ ⟨12, 0, "2025-01"⟩ rfl rfl).1
      rfl).1,
   (approve_consumes_iff_current_month (fun _ => "2024-12") "2025-01"
        ⟨0, "Cuti", "pending", 4, false⟩ ⟨12, 0, "2025-01"⟩ rfl rfl).2
      (by decide)⟩

/-- C8: a `"Cuti"` request for 1 day with a staged attachment, submitted by
an employee with quota 5 and used 5, fails the quota check — and the early
`return` leaves the staged attachment on disk (`fileStillStaged = true`),
although no request row is created; only failures that reach the catch
block (here: a missing employee row) unlink the staged file. -/
theorem create_quota_failure_orphans_attachment :
    createLeave "2025-01" "Cuti" true 0 0 (some ⟨5, 5, "2025-01"⟩) =
      { request := none, employee := some ⟨5, 5, "2025-01"⟩
        fileStillStaged := true, ok := false } ∧
    createLeave "2025-01" "Cuti" true 0 0 none =
      { request := none, employee := none
        fileStillStaged := false, ok := false } := by
  constructor <;> rfl

theorem ceil_div_msPerDay (n : Nat) :
    ⌈(n : ℚ) / (86400000 : ℚ)⌉ = (((n + 86399999) / 86400000 : ℕ) : ℤ) := by
  rw [Int.ceil_eq_iff]
  constructor
  · rw [lt_div_iff₀ (by norm_num : (0 : ℚ) < 86400000)]
    have h : ((((n + 86399999) / 86400000 : ℕ) : ℤ) - 1) * 86400000 <
        (n : ℤ) := by omega
    exact_mod_cast h
  · rw [div_le_iff₀ (by norm_num : (0 : ℚ) < 86400000)]
    have h : (n : ℤ) ≤
        (((n + 86399999) / 86400000 : ℕ) : ℤ) * 86400000 := by omega
    exact_mod_cast h

/-- C9: `calculateLeaveDays` returns
`⌈|end - start| / 86400 s⌉ + 1` (timestamps and the divisor are in
milliseconds, so 86400 s is the constant 86400000 ms); it is symmetric in
its two arguments, and on equal arguments it returns 1. -/
theorem calculateLeaveDays_ceil_symm_refl (a b : Int) :
    ((calculateLeaveDays a b : ℕ) : ℤ) =
      ⌈(((b - a).natAbs : ℕ) : ℚ) / (86400000 : ℚ)⌉ + 1 ∧
    calculateLeaveDays a b = calculateLeaveDays b a ∧
    calculateLeaveDays a a = 1 := by
  refine ⟨?_, ?_, ?_⟩
  · rw [ceil_div_msPerDay]
    simp only [calculateLeaveDays, msPerDay]
    push_cast
    rfl
  · simp only [calculateLeaveDays]
    have h : (b - a).natAbs = (a - b).natAbs := by omega
    rw [h]
  · simp only [calculateLeaveDays, msPerDay, sub_self, Int.natAbs_zero]

theorem alphaDeduction_foldl (c : Int) (l : List Attendance) :
    l.foldl (fun s _ => s + 100000) c = c + l.length * 100000 := by
  induction l generalizing c with
  | nil => simp
  | cons a tl ih =>
      simp only [List.foldl_cons, ih, List.length_cons]
      push_cast
      ring

theorem alphaDeduction_eq (l : List Attendance) :
    alphaDeduction l = (l.length : Int) * 100000 := by
  simpa [alphaDeduction] using alphaDeduction_foldl 0 l

theorem map_eq_self_of_eq {f : Attendance → Attendance}
    {l : List Attendance} (h : ∀ a ∈ l, f a = a) : l.map f = l := by
  induction l with
  | nil => rfl
  | cons a tl ih =>
      simp only [List.map_cons, h a (List.mem_cons_self a tl)]
      rw [ih fun x hx => h x (List.mem_cons_of_mem a hx)]

theorem length_filter_map_conv (p : Attendance → Bool)
    (f : Attendance → Attendance) (i : Nat)
    (hf_id : ∀ a : Attendance, a.attendance_id ≠ i → f a = a)
    (hf_p : ∀ a : Attendance, a.attendance_id = i → p (f a) = false)
    (db : List Attendance) (r : Attendance)
    (hnodup : (db.map Attendance.attendance_id).Nodup)
    (hfind : db.find? (fun a => a.attendance_id == i) = some r)
    (hpr : p r = true) :
    ((db.map f).filter p).length = (db.filter p).length - 1 ∧
    ∀ a ∈ (db.map f).filter p, a.attendance_id ≠ i := by
  induction db with
  | nil => simp at hfind
  | cons a tl ih =>
      rw [List.map_cons, List.nodup_cons] at hnodup
      obtain ⟨ha_nin, htl⟩ := hnodup
      by_cases hid : a.attendance_id = i
      · simp only [List.find?_cons, hid, beq_self_eq_true,
          Option.some.injEq] at hfind
        obtain rfl : a = r := hfind
        have htl_ne : ∀ x ∈ tl, f x = x := by
          intro x hx
          refine hf_id x ?_
          intro hxi
          exact ha_nin (hid ▸ hxi ▸ List.mem_map_of_mem Attendance.attendance_id hx)
        constructor
        · rw [List.map_cons, map_eq_self_of_eq htl_ne,
            List.filter_cons_of_neg (by simp [hf_p a hid]),
            List.filter_cons_of_pos (by simp [hpr])]
          simp
        · intro x hx
          rw [List.map_cons, map_eq_self_of_eq htl_ne,
            List.filter_cons_of_neg (by simp [hf_p a hid])] at hx
          have hx_tl : x ∈ tl := List.mem_of_mem_filter hx
          intro hxi
          exact ha_nin (hid ▸ hxi ▸
            List.mem_map_of_mem Attendance.attendance_id hx_tl)
      · have hfa : (a.attendance_id == i) = false := by simp [hid]
        simp only [List.find?_cons, hfa] at hfind
        obtain ⟨hlen, hmem⟩ := ih htl hfind
        have hr_tl : r ∈ tl := List.mem_of_find?_eq_some hfind
        have hpos : 0 < (tl.filter p).length :=
          List.length_pos.mpr
            (List.ne_nil_of_mem (List.mem_filter.mpr ⟨hr_tl, hpr⟩))
        have hfaeq : f a = a := hf_id a hid
        constructor
        · rw [List.map_cons, hfaeq]
          by_cases hpa : p a = true
          · rw [List.filter_cons_of_pos hpa, List.filter_cons_of_pos hpa]
            simp only [List.length_cons]
            omega
          · rw [List.filter_cons_of_neg hpa, List.filter_cons_of_neg hpa]
            exact hlen
        · intro x hx
          rw [List.map_cons, hfaeq] at hx
          by_cases hpa : p a = true
          · rw [List.filter_cons_of_pos hpa] at hx
            rcases List.mem_cons.mp hx with hx1 | hx2
            · exact hx1 ▸ hid
            · exact hmem x hx2
          · rw [List.filter_cons_of_neg hpa] at hx
            exact hmem x hx

/-- C10: when `convertAlpha` succeeds in reclassifying record `r` (found by
id, with ids unique in the store) to a non-alpha status, then `r`'s status
was `"alpa"` (the legality condition), and for every date range containing
`r.tanggal` the summary over the updated store drops exactly one record
from the alpha count, contains no record with the converted id, and its
deduction total is count × 100000 over the remaining alpha records. -/
theorem convert_excludes_from_summary (i : Nat) (ns ket : String)
    (db db' : List Attendance) (startDate endDate : Int) (r : Attendance)
    (hnodup : (db.map Attendance.attendance_id).Nodup)
    (hok : convertAlpha i ns ket db = .ok db')
    (hfind : db.find? (fun a => a.attendance_id == i) = some r)
    (hstart : startDate ≤ r.tanggal) (hend : r.tanggal ≤ endDate) :
    r.status = "alpa" ∧
    (getAlphaSummary startDate endDate db').1 =
      (getAlphaSummary startDate endDate db).1 - 1 ∧
    (∀ a ∈ alphaRecordsInRange startDate endDate db', a.attendance_id ≠ i) ∧
    (getAlphaSummary startDate endDate db').2 =
      ((getAlphaSummary startDate endDate db').1 : Int) * 100000 := by
  unfold convertAlpha at hok
  split at hok
  · exact absurd hok (by simp)
  · rename_i hvn
    have hv : ns = "hadir" ∨ ns = "izin" ∨ ns = "sakit" := not_not.mp hvn
    split at hok
    · exact absurd hok (by simp)
    · rename_i record heq
      rw [hfind] at heq
      obtain rfl : r = record := Option.some.inj heq
      split at hok
      · exact absurd hok (by simp)
      · rename_i hrn
        have hr : r.status = "alpa" := not_not.mp hrn
        have hdb' : db' = db.map (convRow i ns ket) := by
          injection hok with h
          exact h.symm
        have hns : ns ≠ "alpa" := by
          rcases hv with h | h | h <;> rw [h] <;> decide
        have hkey := length_filter_map_conv
          (fun a => a.status == "alpa" && decide (startDate ≤ a.tanggal) &&
            decide (a.tanggal ≤ endDate))
          (convRow i ns ket) i
          (fun a ha => by simp [convRow, ha])
          (fun a ha => by simp [convRow, ha, hns])
          db r hnodup hfind (by simp [hr, hstart, hend])
        refine ⟨hr, ?_, ?_, ?_⟩
        · simpa [getAlphaSummary, alphaRecordsInRange, hdb'] using hkey.1
        · intro a ha
          refine hkey.2 a ?_
          simpa [alphaRecordsInRange, hdb'] using ha
        · simp only [getAlphaSummary]
          exact alphaDeduction_eq _

/-- Witness for C10: a two-record store in which the record with id 1 is
reclassified from `"alpa"` to `"hadir"`; the summary over a range holding
both dates then counts one alpha record with deduction 100000. -/
theorem convert_excludes_from_summary_witness :
    (⟨1, 10, 5, "alpa", ""⟩ : Attendance).status = "alpa" ∧
    (getAlphaSummary 0 10
        [⟨1, 10, 5, "hadir", "note"⟩, ⟨2, 11, 6, "alpa", ""⟩]).1 =
      (getAlphaSummary 0 10
        [⟨1, 10, 5, "alpa", ""⟩, ⟨2, 11, 6, "alpa", ""⟩]).1 - 1 ∧
    (∀ a ∈ alphaRecordsInRange 0 10
        [⟨1, 10, 5, "hadir", "note"⟩, ⟨2, 11, 6, "alpa", ""⟩],
      a.attendance_id ≠ 1) ∧
    (getAlphaSummary 0 10
        [⟨1, 10, 5, "hadir", "note"⟩, ⟨2, 11, 6, "alpa", ""⟩]).2 =
      ((getAlphaSummary 0 10
        [⟨1, 10, 5, "hadir", "note"⟩, ⟨2, 11, 6, "alpa", ""⟩]).1 : Int) *
        100000 :=
  convert_excludes_from_summary 1 "hadir" "note"
    [⟨1, 10, 5, "alpa", ""⟩, ⟨2, 11, 6, "alpa", ""⟩]
    [⟨1, 10, 5, "hadir", "note"⟩, ⟨2, 11, 6, "alpa", ""⟩]
    0 10 ⟨1, 10, 5, "alpa", ""⟩ (by decide) rfl rfl (by decide) (by decide)

end KaryawanKita
